import Mathlib

/-!
Shallow embedding of the osin-postgres storage layer
(`storage/postgres/postgres.go`) and proofs about its operations.

The four SQL tables are modelled as lists of rows inside a `DB` state.
`QueryRow ... LIMIT 1` becomes `List.find?`; an `INSERT` fails with a
duplicate-key error exactly when a row with the same primary key (as
declared in the `schemas` DDL) is already present.  The `*sql.Tx`
transaction in `SaveAccess` is modelled by threading a pending copy of
the state: `Commit` publishes it, `Rollback` (and every error return
before `Commit`) keeps the original state.  Failures that the SQL driver
can inject from outside (`Begin`, `Commit`, `Rollback` failing) are
modelled by boolean fault flags in `TxEnv`.  A Go nil-pointer
dereference (panic) is modelled by the save functions returning `none`.
`LoadAccess` is recursive in Go with no termination guarantee, so it is
embedded with explicit fuel: running out of fuel (`none`) marks
divergence of the Go recursion.
-/

namespace OsinPG

/-- A row of the `client` table: id (primary key), secret, redirect_uri. -/
structure ClientRow where
  id : String
  secret : String
  redirectUri : String
deriving DecidableEq, Repr

/-- A row of the `authorize` table: code is the primary key. -/
structure AuthorizeRow where
  client : String
  code : String
  expiresIn : Int
  scope : String
  redirectUri : String
  state : String
  createdAt : Int
deriving DecidableEq, Repr

/-- A row of the `access` table: access_token is the primary key. -/
structure AccessRow where
  client : String
  authorize : String
  previous : String
  accessToken : String
  refreshToken : String
  expiresIn : Int
  scope : String
  redirectUri : String
  createdAt : Int
deriving DecidableEq, Repr

/-- A row of the `refresh` table: token is the primary key. -/
structure RefreshRow where
  token : String
  access : String
deriving DecidableEq, Repr

/-- The database state: the four record sets of the schema. -/
structure DB where
  clients : List ClientRow
  authorizes : List AuthorizeRow
  accesses : List AccessRow
  refreshes : List RefreshRow
deriving DecidableEq, Repr

/-- Errors surfaced by the storage layer: `notFound` models
`sql.ErrNoRows`, `duplicateKey` a primary-key violation,
`duplicateTable` a `CREATE TABLE` of an existing table, and the
remaining variants driver failures of `Begin`/`Commit`/`Rollback`. -/
inductive Err where
  | notFound
  | duplicateKey
  | duplicateTable
  | beginFailed
  | commitFailed
  | rollbackFailed
deriving DecidableEq, Repr

/-- `SELECT ... FROM client WHERE id=$1 LIMIT 1`. -/
def findClient (db : DB) (id : String) : Option ClientRow :=
  db.clients.find? (fun c => c.id == id)

/-- `SELECT ... FROM authorize WHERE code=$1 LIMIT 1`. -/
def findAuthorize (db : DB) (code : String) : Option AuthorizeRow :=
  db.authorizes.find? (fun a => a.code == code)

/-- `SELECT ... FROM access WHERE access_token=$1 LIMIT 1`. -/
def findAccess (db : DB) (tok : String) : Option AccessRow :=
  db.accesses.find? (fun r => r.accessToken == tok)

/-- `SELECT ... FROM refresh WHERE token=$1 LIMIT 1`. -/
def findRefresh (db : DB) (tok : String) : Option RefreshRow :=
  db.refreshes.find? (fun r => r.token == tok)

/-- `INSERT INTO client ...`: fails iff the primary key `id` exists. -/
def insertClient (db : DB) (c : ClientRow) : Except Err DB :=
  match findClient db c.id with
  | some _ => .error .duplicateKey
  | none => .ok { db with clients := db.clients ++ [c] }

/-- `INSERT INTO authorize ...`: fails iff the primary key `code` exists. -/
def insertAuthorize (db : DB) (a : AuthorizeRow) : Except Err DB :=
  match findAuthorize db a.code with
  | some _ => .error .duplicateKey
  | none => .ok { db with authorizes := db.authorizes ++ [a] }

/-- `INSERT INTO access ...`: fails iff the primary key `access_token` exists. -/
def insertAccess (db : DB) (r : AccessRow) : Except Err DB :=
  match findAccess db r.accessToken with
  | some _ => .error .duplicateKey
  | none => .ok { db with accesses := db.accesses ++ [r] }

/-- `INSERT INTO refresh ...`: fails iff the primary key `token` exists. -/
def insertRefresh (db : DB) (r : RefreshRow) : Except Err DB :=
  match findRefresh db r.token with
  | some _ => .error .duplicateKey
  | none => .ok { db with refreshes := db.refreshes ++ [r] }

/-- `Storage.GetClient`: scan the row, surfacing the scan error. -/
def getClient (db : DB) (id : String) : Except Err ClientRow :=
  match findClient db id with
  | none => .error .notFound
  | some c => .ok c

/-- `Storage.CreateClient`: insert, returning the written client on
success and the unchanged state with the error on failure. -/
def createClient (db : DB) (id secret redirectUri : String) :
    Except Err ClientRow × DB :=
  match insertClient db ⟨id, secret, redirectUri⟩ with
  | .error e => (.error e, db)
  | .ok db2 => (.ok ⟨id, secret, redirectUri⟩, db2)

/-- `Storage.UpdateClient`: a plain `UPDATE ... WHERE id=$1`.  The Go
code never inspects the affected-row count, so an update of an absent id
succeeds with no effect. -/
def updateClient (db : DB) (id secret redirectUri : String) :
    Except Err ClientRow × DB :=
  (.ok ⟨id, secret, redirectUri⟩,
   { db with clients := db.clients.map (fun c =>
       if c.id == id then { c with secret := secret, redirectUri := redirectUri }
       else c) })

/-- A fully resolved authorization grant as `LoadAuthorize` returns it:
the raw row with `client` resolved to the client record. -/
structure AuthData where
  client : ClientRow
  code : String
  expiresIn : Int
  scope : String
  redirectUri : String
  state : String
  createdAt : Int
deriving DecidableEq, Repr

/-- A fully resolved access grant as `LoadAccess` returns it; the
`Option AccessData` argument is the resolved predecessor grant
(`osin.AccessData.AccessData`, nil when `previous` was empty). -/
inductive AccessData where
  | mk (client : ClientRow) (authorizeData : AuthData)
      (accessData : Option AccessData)
      (accessToken : String) (refreshToken : String)
      (expiresIn : Int) (scope : String) (redirectUri : String)
      (createdAt : Int) : AccessData

/-- The resolved predecessor component of an `AccessData`. -/
def AccessData.pred : AccessData → Option AccessData
  | .mk _ _ p _ _ _ _ _ _ => p

/-- `Storage.LoadAuthorize`: scan the row (error checked), then resolve
the owning client via `GetClient`, failing the whole load on error. -/
def loadAuthorize (db : DB) (code : String) : Except Err AuthData :=
  match findAuthorize db code with
  | none => .error .notFound
  | some a =>
    match getClient db a.client with
    | .error e => .error e
    | .ok c => .ok ⟨c, a.code, a.expiresIn, a.scope, a.redirectUri, a.state, a.createdAt⟩

/-- `Storage.LoadAccess`, with fuel for the unbounded Go recursion
(`none` = the recursion did not terminate within the fuel).  Faithful to
the source: the `row.Scan` error is NOT checked, so when no row matches
the scanned variables keep their zero values (empty strings, zero
numbers) and the load proceeds with them. -/
def loadAccessFuel (db : DB) : Nat → String → Option (Except Err AccessData)
  | 0, _ => none
  | fuel+1, tok =>
    let scanned := findAccess db tok
    let cid := (scanned.map (fun r => r.client)).getD ""
    let authorizeCode := (scanned.map (fun r => r.authorize)).getD ""
    let prevTok := (scanned.map (fun r => r.previous)).getD ""
    let accessToken := (scanned.map (fun r => r.accessToken)).getD ""
    let refreshToken := (scanned.map (fun r => r.refreshToken)).getD ""
    let expiresIn := (scanned.map (fun r => r.expiresIn)).getD 0
    let scope := (scanned.map (fun r => r.scope)).getD ""
    let redirectUri := (scanned.map (fun r => r.redirectUri)).getD ""
    let createdAt := (scanned.map (fun r => r.createdAt)).getD 0
    match getClient db cid with
    | .error e => some (.error e)
    | .ok client =>
      match loadAuthorize db authorizeCode with
      | .error e => some (.error e)
      | .ok authorize =>
        if prevTok != "" then
          match loadAccessFuel db fuel prevTok with
          | none => none
          | some (.error e) => some (.error e)
          | some (.ok prev) =>
            some (.ok (.mk client authorize (some prev) accessToken
              refreshToken expiresIn scope redirectUri createdAt))
        else
          some (.ok (.mk client authorize none accessToken
            refreshToken expiresIn scope redirectUri createdAt))

/-- Input to `SaveAuthorize` (`osin.AuthorizeData`): `client` is a Go
pointer, hence `Option`. -/
structure AuthorizeDataIn where
  client : Option ClientRow
  code : String
  expiresIn : Int
  scope : String
  redirectUri : String
  state : String
  createdAt : Int
deriving DecidableEq, Repr

/-- The predecessor pointer carried by an `osin.AccessData` being
saved; `SaveAccess` reads only its `AccessToken`. -/
structure PrevAccess where
  accessToken : String
deriving DecidableEq, Repr

/-- Input to `SaveAccess` (`osin.AccessData`): `client`, `authorizeData`
and the predecessor `accessData` are Go pointers, hence `Option`. -/
structure AccessDataIn where
  client : Option ClientRow
  authorizeData : Option AuthorizeDataIn
  accessData : Option PrevAccess
  accessToken : String
  refreshToken : String
  expiresIn : Int
  scope : String
  redirectUri : String
  createdAt : Int
deriving DecidableEq, Repr

/-- `Storage.SaveAuthorize`: evaluates `data.Client.GetId()` (nil
dereference, i.e. `none`, when the client pointer is nil) and inserts
the row. -/
def saveAuthorize (db : DB) (data : AuthorizeDataIn) :
    Option (Except Err Unit × DB) :=
  match data.client with
  | none => none
  | some c =>
    match insertAuthorize db ⟨c.id, data.code, data.expiresIn, data.scope,
        data.redirectUri, data.state, data.createdAt⟩ with
    | .error e => some (.error e, db)
    | .ok db2 => some (.ok (), db2)

/-- Driver fault flags for the transaction in `SaveAccess`: whether
`Begin`, `Commit` and `Rollback` succeed. -/
structure TxEnv where
  beginOk : Bool
  commitOk : Bool
  rollbackOk : Bool
deriving DecidableEq, Repr

/-- `Storage.SaveAccess` together with the helper `saveRefresh`,
transcribed statement by statement.  `prev` is computed from the
possibly-nil predecessor pointer; `Begin` opens a transaction (the
pending state starts as the current state); if `data.RefreshToken` is
non-empty, `saveRefresh` inserts the refresh row inside the transaction
and on failure rolls back — returning the rollback error INSTEAD of the
insert error when rollback fails, as the Go code does; then the access
row is inserted inside the transaction, with the same
rollback-error-overwrites pattern on failure; finally `Commit` publishes
the pending state.  Every error path leaves the original state.
Dereferencing `data.Client`/`data.AuthorizeData` happens only when the
access `INSERT`'s arguments are evaluated; `none` models that panic. -/
def saveAccess (env : TxEnv) (db : DB) (data : AccessDataIn) :
    Option (Except Err Unit × DB) :=
  let prev := match data.accessData with
    | some p => p.accessToken
    | none => ""
  if env.beginOk then
    let refreshStep : Except Err DB :=
      if data.refreshToken != "" then
        match insertRefresh db ⟨data.refreshToken, data.accessToken⟩ with
        | .ok tx1 => .ok tx1
        | .error e => .error (if env.rollbackOk then e else .rollbackFailed)
      else .ok db
    match refreshStep with
    | .error e => some (.error e, db)
    | .ok tx1 =>
      match data.client, data.authorizeData with
      | some c, some a =>
        match insertAccess tx1 ⟨c.id, a.code, prev, data.accessToken,
            data.refreshToken, data.expiresIn, data.scope,
            data.redirectUri, data.createdAt⟩ with
        | .error e =>
          some (.error (if env.rollbackOk then e else .rollbackFailed), db)
        | .ok tx2 =>
          if env.commitOk then some (.ok (), tx2)
          else some (.error .commitFailed, db)
      | _, _ => none
  else some (.error .beginFailed, db)

/-- The tables created by the DDL in `schemas`. -/
inductive Table where
  | client
  | authorize
  | access
  | refresh
deriving DecidableEq, Repr

/-- One `CREATE TABLE` statement: which table, and whether the DDL says
`IF NOT EXISTS`. -/
structure SchemaStmt where
  table : Table
  ifNotExists : Bool
deriving DecidableEq, Repr

/-- The `schemas` slice of the source: the `client` DDL is a plain
`CREATE TABLE`, the other three use `CREATE TABLE IF NOT EXISTS`. -/
def schemas : List SchemaStmt :=
  [⟨.client, false⟩, ⟨.authorize, true⟩, ⟨.access, true⟩, ⟨.refresh, true⟩]

/-- Which of the four tables currently exist. -/
structure SchemaState where
  hasClient : Bool
  hasAuthorize : Bool
  hasAccess : Bool
  hasRefresh : Bool
deriving DecidableEq, Repr

/-- Whether a table exists in the schema state. -/
def SchemaState.has (st : SchemaState) : Table → Bool
  | .client => st.hasClient
  | .authorize => st.hasAuthorize
  | .access => st.hasAccess
  | .refresh => st.hasRefresh

/-- Mark a table as existing. -/
def SchemaState.add (st : SchemaState) : Table → SchemaState
  | .client => { st with hasClient := true }
  | .authorize => { st with hasAuthorize := true }
  | .access => { st with hasAccess := true }
  | .refresh => { st with hasRefresh := true }

/-- Execute one `CREATE TABLE`: an existing table is an error unless the
statement says `IF NOT EXISTS`. -/
def execSchema (st : SchemaState) (stmt : SchemaStmt) : Except Err SchemaState :=
  if st.has stmt.table then
    if stmt.ifNotExists then .ok st else .error .duplicateTable
  else .ok (st.add stmt.table)

/-- The loop body of `CreateSchemas`: run statements in order, stopping
at the first error. -/
def runSchemas : SchemaState → List SchemaStmt → Except Err SchemaState
  | st, [] => .ok st
  | st, s :: rest =>
    match execSchema st s with
    | .error e => .error e
    | .ok st2 => runSchemas st2 rest

/-- `Storage.CreateSchemas`. -/
def createSchemas (st : SchemaState) : Except Err SchemaState :=
  runSchemas st schemas

/-- The successor step of the `previous`-pointer walk that `LoadAccess`
recurses along: from token `t`, recursion happens exactly when an
access row for `t` exists and its `previous` field is non-empty. -/
def nextTok (db : DB) (t : String) : Option String :=
  match findAccess db t with
  | some r => if r.previous != "" then some r.previous else none
  | none => none

/-- The list of tokens visited by the `previous`-pointer walk from `t`,
computed with fuel: `some l` means the walk reaches its end (the
reachable chain is finite and does not revisit) within `fuel` steps,
`none` that it does not. -/
def chainFuel (db : DB) : Nat → String → Option (List String)
  | 0, _ => none
  | fuel+1, t =>
    match nextTok db t with
    | none => some [t]
    | some p => (chainFuel db fuel p).map (fun l => t :: l)

/-- The token spelled with `k` copies of the letter a; distinct `k` give
distinct tokens, and `tok 0` is the empty string. -/
def tok (k : Nat) : String :=
  String.mk (List.replicate k 'a')

/-- The access row whose token is `tok (k+1)` and whose `previous` field
is `tok k` (empty for `k = 0`). -/
def chainRow (k : Nat) : AccessRow :=
  ⟨"c", "ac", tok k, tok (k+1), "", 0, "", "", 0⟩

/-- The access rows of a rotation chain of length `n`:
`chainRow (n-1), ..., chainRow 0`. -/
def chainRows : Nat → List AccessRow
  | 0 => []
  | n+1 => chainRow n :: chainRows n

/-- A database holding one client, one authorization and a rotation
chain of `n` access rows ending at `tok n`. -/
def chainDB (n : Nat) : DB :=
  ⟨[⟨"c", "s", "r"⟩], [⟨"c", "ac", 0, "", "", "", 0⟩], chainRows n, []⟩

/-- A database whose single access row is its own predecessor: a cycle
of length one in the `previous`-pointer graph, with the referenced
client and authorization present so resolution never fails early. -/
def cycleDB : DB :=
  ⟨[⟨"c", "s", "r"⟩], [⟨"c", "ac", 0, "", "", "", 0⟩],
   [⟨"c", "ac", "t", "t", "", 0, "", "", 0⟩], []⟩

/-- The fully resolved grant that loading token `tok (k+1)` of a chain
database produces: `k` resolved predecessors below it. -/
def chainData : Nat → AccessData
  | 0 => .mk ⟨"c", "s", "r"⟩ ⟨⟨"c", "s", "r"⟩, "ac", 0, "", "", "", 0⟩ none
      (tok 1) "" 0 "" "" 0
  | k+1 => .mk ⟨"c", "s", "r"⟩ ⟨⟨"c", "s", "r"⟩, "ac", 0, "", "", "", 0⟩
      (some (chainData k)) (tok (k+2)) "" 0 "" "" 0

end OsinPG

namespace OsinPG

theorem loadAccessFuel_succ_found {db : DB} {t : String} {r : AccessRow}
    (fuel : Nat) (hf : findAccess db t = some r) :
    loadAccessFuel db (fuel+1) t =
      match getClient db r.client with
      | .error e => some (.error e)
      | .ok client =>
        match loadAuthorize db r.authorize with
        | .error e => some (.error e)
        | .ok authorize =>
          if r.previous != "" then
            match loadAccessFuel db fuel r.previous with
            | none => none
            | some (.error e) => some (.error e)
            | some (.ok prev) =>
              some (.ok (.mk client authorize (some prev) r.accessToken
                r.refreshToken r.expiresIn r.scope r.redirectUri r.createdAt))
          else
            some (.ok (.mk client authorize none r.accessToken
              r.refreshToken r.expiresIn r.scope r.redirectUri r.createdAt)) := by
  simp [loadAccessFuel, hf]

theorem loadAccessFuel_succ_missing {db : DB} {t : String}
    (fuel : Nat) (hf : findAccess db t = none) :
    loadAccessFuel db (fuel+1) t =
      match getClient db "" with
      | .error e => some (.error e)
      | .ok client =>
        match loadAuthorize db "" with
        | .error e => some (.error e)
        | .ok authorize =>
          some (.ok (.mk client authorize none "" "" 0 "" "" 0)) := by
  simp [loadAccessFuel, hf]

theorem tok_injective {j k : Nat} (h : tok j = tok k) : j = k := by
  have h2 := congrArg (fun s => s.data.length) h
  simpa [tok] using h2

theorem tok_succ_ne_empty (k : Nat) : tok (k+1) ≠ "" := by
  intro h
  have h2 := congrArg (fun s => s.data.length) h
  simp [tok] at h2

theorem tok_zero : tok 0 = "" := rfl

theorem chainRows_find : ∀ m k, k < m →
    (chainRows m).find? (fun r => r.accessToken == tok (k+1)) = some (chainRow k)
  | 0, k, h => absurd h (Nat.not_lt_zero k)
  | m+1, k, h => by
    by_cases hk : k = m
    · subst hk
      have hp : ((chainRow k).accessToken == tok (k+1)) = true := by
        simp [chainRow]
      simp [chainRows, List.find?_cons, hp]
    · have hk2 : k < m := Nat.lt_of_le_of_ne (Nat.le_of_lt_succ h) hk
      have hne : ((chainRow m).accessToken == tok (k+1)) = false := by
        simp [chainRow]
        intro hEq
        exact hk (Nat.succ_injective (tok_injective hEq)).symm
      simp [chainRows, List.find?_cons, hne, chainRows_find m k hk2]

theorem chainDB_find {m k : Nat} (h : k < m) :
    findAccess (chainDB m) (tok (k+1)) = some (chainRow k) := by
  simpa [findAccess, chainDB] using chainRows_find m k h

theorem chainDB_getClient (m : Nat) :
    getClient (chainDB m) "c" = .ok ⟨"c", "s", "r"⟩ := rfl

theorem chainDB_loadAuthorize (m : Nat) :
    loadAuthorize (chainDB m) "ac" = .ok ⟨⟨"c", "s", "r"⟩, "ac", 0, "", "", "", 0⟩ := rfl

theorem chain_loads : ∀ k m, k < m →
    loadAccessFuel (chainDB m) (k+1) (tok (k+1)) = some (.ok (chainData k))
  | 0, m, h => by
    rw [loadAccessFuel_succ_found 0 (chainDB_find h)]
    simp [chainRow, chainDB_getClient, chainDB_loadAuthorize, tok_zero, chainData]
  | k+1, m, h => by
    rw [loadAccessFuel_succ_found (k+1) (chainDB_find h)]
    simp only [chainRow, chainDB_getClient, chainDB_loadAuthorize]
    have hb : ((tok (k+1) : String) != "") = true :=
      bne_iff_ne.mpr (tok_succ_ne_empty k)
    rw [if_pos hb, chain_loads k m (Nat.lt_of_succ_lt h)]
    rfl

theorem chain_chainFuel : ∀ k m, k < m →
    ∃ l, chainFuel (chainDB m) (k+1) (tok (k+1)) = some l ∧ l.length = k+1
  | 0, m, h => by
    refine ⟨[tok 1], ?_, rfl⟩
    have hn : nextTok (chainDB m) (tok 1) = none := by
      simp [nextTok, chainDB_find h, chainRow, tok_zero]
    simp [chainFuel, hn]
  | k+1, m, h => by
    obtain ⟨l, hl, hlen⟩ := chain_chainFuel k m (Nat.lt_of_succ_lt h)
    refine ⟨tok (k+2) :: l, ?_, by simp [hlen]⟩
    have hn : nextTok (chainDB m) (tok (k+2)) = some (tok (k+1)) := by
      simp [nextTok, chainDB_find h, chainRow, bne_iff_ne, tok_succ_ne_empty k]
    rw [chainFuel, hn]
    simp [hl]

theorem cycle_load_diverges : ∀ fuel, loadAccessFuel cycleDB fuel "t" = none
  | 0 => rfl
  | fuel+1 => by
    have ih := cycle_load_diverges fuel
    rw [loadAccessFuel_succ_found fuel (show findAccess cycleDB "t" =
      some ⟨"c", "ac", "t", "t", "", 0, "", "", 0⟩ from rfl)]
    simp only [show getClient cycleDB "c" = .ok ⟨"c", "s", "r"⟩ from rfl,
      show loadAuthorize cycleDB "ac" =
        .ok ⟨⟨"c", "s", "r"⟩, "ac", 0, "", "", "", 0⟩ from rfl]
    simp [ih]

theorem chainFuel_terminates_load :
    ∀ (fuel : Nat) (db : DB) (code : String) (l : List String),
    chainFuel db fuel code = some l → (loadAccessFuel db fuel code).isSome = true
  | 0, db, code, l, h => by simp [chainFuel] at h
  | fuel+1, db, code, l, h => by
    rcases hf : findAccess db code with _ | r
    · rw [loadAccessFuel_succ_missing fuel hf]
      rcases hgc : getClient db "" with e | c <;> simp [hgc]
      rcases hla : loadAuthorize db "" with e | a <;> simp [hla]
    · by_cases hp : r.previous = ""
      · rw [loadAccessFuel_succ_found fuel hf]
        have hb : (r.previous != "") = false := by simp [hp]
        rcases hgc : getClient db r.client with e | c <;> simp [hgc, hb]
        rcases hla : loadAuthorize db r.authorize with e | a <;> simp [hla]
      · have hnext : nextTok db code = some r.previous := by
          simp [nextTok, hf, bne_iff_ne, hp]
        rw [chainFuel, hnext] at h
        have h2 : (chainFuel db fuel r.previous).map (fun l => code :: l) = some l := h
        obtain ⟨l2, hl2⟩ : ∃ l2, chainFuel db fuel r.previous = some l2 := by
          rcases hc : chainFuel db fuel r.previous with _ | l2
          · rw [hc] at h2; simp at h2
          · exact ⟨l2, rfl⟩
        have ih := chainFuel_terminates_load fuel db r.previous l2 hl2
        obtain ⟨x, hx⟩ := Option.isSome_iff_exists.mp ih
        rw [loadAccessFuel_succ_found fuel hf]
        have hb : (r.previous != "") = true := bne_iff_ne.mpr hp
        rcases hgc : getClient db r.client with e | c <;> simp [hgc, hb]
        rcases hla : loadAuthorize db r.authorize with e | a <;> simp [hla]
        rw [hx]
        rcases x with e | d <;> simp

end OsinPG

namespace OsinPG

/-- C5: `CreateSchemas` is NOT idempotent: a first run on an empty store
creates all four tables, but a second run on the initialized store fails
with a duplicate-table error, because the `client` DDL lacks
`IF NOT EXISTS` (the other three statements have it). -/
theorem createSchemas_not_idempotent :
    createSchemas ⟨false, false, false, false⟩ = .ok ⟨true, true, true, true⟩ ∧
    createSchemas ⟨true, true, true, true⟩ = .error .duplicateTable :=
  ⟨rfl, rfl⟩

/-- C6: `UpdateClient` on an id with no client record silently succeeds
with no effect instead of reporting NotFound: on the empty store it
returns the fabricated client and leaves the store unchanged. -/
theorem updateClient_silent_noop :
    updateClient ⟨[], [], [], []⟩ "missing" "s2" "r2" =
      (.ok ⟨"missing", "s2", "r2"⟩, ⟨[], [], [], []⟩) :=
  rfl

/-- C7: `LoadAccess` ignores its row-scan error, so on a token with no
matching access record it does not reliably return NotFound: in a store
holding a client with empty id and an authorization with empty code, it
returns a zero-valued grant (a partial result) with no error. -/
theorem loadAccess_missing_token_returns_grant :
    findAccess ⟨[⟨"", "s", "r"⟩], [⟨"", "", 0, "", "", "", 0⟩], [], []⟩ "missing" = none ∧
    loadAccessFuel ⟨[⟨"", "s", "r"⟩], [⟨"", "", 0, "", "", "", 0⟩], [], []⟩ 1 "missing" =
      some (.ok (.mk ⟨"", "s", "r"⟩ ⟨⟨"", "s", "r"⟩, "", 0, "", "", "", 0⟩
        none "" "" 0 "" "" 0)) :=
  ⟨rfl, rfl⟩

/-- C4: when the access-row insert inside `SaveAccess` fails (here: a
duplicate access token, a duplicate-key error) and the rollback also
fails, the caller observes ONLY the rollback error; the triggering
duplicate-key error is silently discarded. -/
theorem saveAccess_rollback_discards_error :
    insertAccess ⟨[], [], [⟨"c", "ac", "", "t", "", 0, "", "", 0⟩], []⟩
      ⟨"c", "ac", "", "t", "", 0, "", "", 0⟩ = .error .duplicateKey ∧
    saveAccess ⟨true, true, false⟩ ⟨[], [], [⟨"c", "ac", "", "t", "", 0, "", "", 0⟩], []⟩
      ⟨some ⟨"c", "s", "r"⟩, some ⟨some ⟨"c", "s", "r"⟩, "ac", 0, "", "", "", 0⟩,
        none, "t", "", 0, "", "", 0⟩ =
      some (.error .rollbackFailed, ⟨[], [], [⟨"c", "ac", "", "t", "", 0, "", "", 0⟩], []⟩) :=
  ⟨rfl, rfl⟩

/-- C3: termination profile of `LoadAccess`.  First, whenever the
`previous`-pointer chain reachable from a token is finite and acyclic
(it ends within the fuel, `chainFuel` succeeding), the load terminates.
Second, the chain has no maximum length: for every `n` there is a store
with a chain of exactly length `n+1` that loads to completion.  Third,
nothing in the load bounds the recursion on a cyclic chain: on a store
whose access row is its own predecessor the recursion never terminates,
whatever the fuel. -/
theorem loadAccess_termination_profile :
    (∀ (db : DB) (fuel : Nat) (code : String) (l : List String),
        chainFuel db fuel code = some l → (loadAccessFuel db fuel code).isSome = true) ∧
    (∀ n : Nat, ∃ (l : List String) (d : AccessData),
        chainFuel (chainDB (n+1)) (n+1) (tok (n+1)) = some l ∧ l.length = n+1 ∧
        loadAccessFuel (chainDB (n+1)) (n+1) (tok (n+1)) = some (.ok d)) ∧
    nextTok cycleDB "t" = some "t" ∧
    (∀ fuel, loadAccessFuel cycleDB fuel "t" = none) := by
  refine ⟨fun db fuel code l h => chainFuel_terminates_load fuel db code l h,
    fun n => ?_, rfl, cycle_load_diverges⟩
  obtain ⟨l, hl, hlen⟩ := chain_chainFuel n (n+1) (Nat.lt_succ_self n)
  exact ⟨l, chainData n, hl, hlen, chain_loads n (n+1) (Nat.lt_succ_self n)⟩

/-- Witness for C3: on a one-element chain the hypothesis of the
termination part holds concretely and the load terminates. -/
theorem loadAccess_termination_profile_witness :
    (loadAccessFuel (chainDB 1) 1 (tok 1)).isSome = true :=
  loadAccess_termination_profile.1 (chainDB 1) 1 (tok 1) [tok 1] (by decide)

/-- C9: multi-hop loads fail on dangling references.  If the
authorization code referenced by a stored access row has no authorize
row (while the client still resolves), `LoadAccess` of that token fails
with NotFound; and if the client referenced by a stored authorize row no
longer exists, `LoadAuthorize` of that code fails with NotFound. -/
theorem dangling_reference_load_fails :
    (∀ (db : DB) (t : String) (r : AccessRow) (c : ClientRow) (fuel : Nat),
        findAccess db t = some r → findClient db r.client = some c →
        findAuthorize db r.authorize = none →
        loadAccessFuel db (fuel+1) t = some (.error .notFound)) ∧
    (∀ (db : DB) (code : String) (a : AuthorizeRow),
        findAuthorize db code = some a → findClient db a.client = none →
        loadAuthorize db code = .error .notFound) := by
  constructor
  · intro db t r c fuel hf hc ha
    rw [loadAccessFuel_succ_found fuel hf]
    simp [getClient, loadAuthorize, hc, ha]
  · intro db code a ha hc
    simp [loadAuthorize, getClient, ha, hc]

/-- Witness for C9: a store with a client and an access row whose
authorize code is absent, and a store with an authorize row whose client
is absent. -/
theorem dangling_reference_load_fails_witness :
    loadAccessFuel ⟨[⟨"c", "s", "r"⟩], [], [⟨"c", "ac", "", "t", "", 0, "", "", 0⟩], []⟩
      1 "t" = some (.error .notFound) ∧
    loadAuthorize ⟨[], [⟨"c", "ac", 0, "", "", "", 0⟩], [], []⟩ "ac" = .error .notFound :=
  ⟨dangling_reference_load_fails.1 _ "t" ⟨"c", "ac", "", "t", "", 0, "", "", 0⟩
      ⟨"c", "s", "r"⟩ 0 rfl rfl rfl,
   dangling_reference_load_fails.2 _ "ac" ⟨"c", "ac", 0, "", "", "", 0⟩ rfl rfl⟩

end OsinPG

namespace OsinPG

/-- C2: lineage chaining.  For stored access rows `rA` (no predecessor)
and `rB` (whose `previous` is A's token), with all referenced clients
and authorize rows resolvable, `LoadAccess` of B's token returns a grant
whose resolved predecessor carries exactly A's saved fields, and that
predecessor itself has an empty (absent) predecessor. -/
theorem loadAccess_lineage_two :
    ∀ (db : DB) (tA tB : String) (rA rB : AccessRow) (cA cB : ClientRow)
      (aA aB : AuthorizeRow) (caA caB : ClientRow) (fuel : Nat),
      findAccess db tB = some rB → rB.previous = tA →
      findAccess db tA = some rA → rA.previous = "" → tA ≠ "" →
      findClient db rB.client = some cB → findAuthorize db rB.authorize = some aB →
      findClient db aB.client = some caB →
      findClient db rA.client = some cA → findAuthorize db rA.authorize = some aA →
      findClient db aA.client = some caA →
      loadAccessFuel db (fuel+2) tB = some (.ok (.mk cB
        ⟨caB, aB.code, aB.expiresIn, aB.scope, aB.redirectUri, aB.state, aB.createdAt⟩
        (some (.mk cA
          ⟨caA, aA.code, aA.expiresIn, aA.scope, aA.redirectUri, aA.state, aA.createdAt⟩
          none rA.accessToken rA.refreshToken rA.expiresIn rA.scope
          rA.redirectUri rA.createdAt))
        rB.accessToken rB.refreshToken rB.expiresIn rB.scope
        rB.redirectUri rB.createdAt)) := by
  intro db tA tB rA rB cA cB aA aB caA caB fuel hfB hBprev hfA hAprev htA
    hcB haB hcaB hcA haA hcaA
  rw [loadAccessFuel_succ_found (fuel+1) hfB]
  simp only [getClient, loadAuthorize, hcB, haB, hcaB]
  have hbB : (rB.previous != "") = true := by
    rw [hBprev]; exact bne_iff_ne.mpr htA
  rw [if_pos hbB, hBprev, loadAccessFuel_succ_found fuel hfA]
  simp only [getClient, loadAuthorize, hcA, haA, hcaA]
  have hbA : (rA.previous != "") = false := by
    rw [hAprev]; rfl
  rw [hbA]
  simp

/-- Witness for C2: a concrete store with grant A (token "ta", no
predecessor) and grant B (token "tb", previous "ta"). -/
theorem loadAccess_lineage_two_witness :
    loadAccessFuel ⟨[⟨"c", "s", "r"⟩], [⟨"c", "ac", 9, "sc", "ru", "st", 7⟩],
        [⟨"c", "ac", "", "ta", "rt", 1, "s1", "r1", 2⟩,
         ⟨"c", "ac", "ta", "tb", "rt2", 3, "s2", "r2", 4⟩], []⟩ 2 "tb" =
      some (.ok (.mk ⟨"c", "s", "r"⟩ ⟨⟨"c", "s", "r"⟩, "ac", 9, "sc", "ru", "st", 7⟩
        (some (.mk ⟨"c", "s", "r"⟩ ⟨⟨"c", "s", "r"⟩, "ac", 9, "sc", "ru", "st", 7⟩
          none "ta" "rt" 1 "s1" "r1" 2))
        "tb" "rt2" 3 "s2" "r2" 4)) :=
  loadAccess_lineage_two _ "ta" "tb"
    ⟨"c", "ac", "", "ta", "rt", 1, "s1", "r1", 2⟩
    ⟨"c", "ac", "ta", "tb", "rt2", 3, "s2", "r2", 4⟩
    ⟨"c", "s", "r"⟩ ⟨"c", "s", "r"⟩
    ⟨"c", "ac", 9, "sc", "ru", "st", 7⟩ ⟨"c", "ac", 9, "sc", "ru", "st", 7⟩
    ⟨"c", "s", "r"⟩ ⟨"c", "s", "r"⟩ 0
    rfl rfl rfl rfl (by decide) rfl rfl rfl rfl rfl rfl

end OsinPG

namespace OsinPG

theorem find?_append_of_none {α : Type} {p : α → Bool} {l1 l2 : List α}
    (h : l1.find? p = none) : (l1 ++ l2).find? p = l2.find? p := by
  simp [List.find?_append, h]

theorem insertRefresh_absent (db : DB) (t a2 : String)
    (h : findRefresh db t = none) :
    insertRefresh db ⟨t, a2⟩ =
      .ok ⟨db.clients, db.authorizes, db.accesses, db.refreshes ++ [⟨t, a2⟩]⟩ := by
  simp [insertRefresh, h]

theorem insertAccess_absent (db : DB) (r : AccessRow)
    (h : findAccess db r.accessToken = none) :
    insertAccess db r =
      .ok ⟨db.clients, db.authorizes, db.accesses ++ [r], db.refreshes⟩ := by
  simp [insertAccess, h]

/-- Helper: inserting a refresh row whose token is already present
fails with a duplicate-key error. -/
theorem insertRefresh_present (db : DB) (t a2 : String) (s0 : RefreshRow)
    (h : findRefresh db t = some s0) :
    insertRefresh db ⟨t, a2⟩ = .error .duplicateKey := by
  simp [insertRefresh, h]

/-- Helper: inserting an access row whose access token is already
present fails with a duplicate-key error. -/
theorem insertAccess_present (db : DB) (r : AccessRow) (r0 : AccessRow)
    (h : findAccess db r.accessToken = some r0) :
    insertAccess db r = .error .duplicateKey := by
  simp [insertAccess, h]

/-- C1: atomicity of `SaveAccess` for a grant with a non-empty refresh
token.  First the dichotomy, with no assumption on the prior state: the
call either succeeds with both the access row and the refresh row
present in the resulting state, or fails with a single error and
returns exactly the original state — so no partial state ever persists.
Then each failure the claim names is exhibited: a failing refresh-row
insert (duplicate refresh token), a failing access-row insert (duplicate
access token), and a failing commit each produce an error and leave the
state unchanged, so no access record for the grant's token is persisted
by the failing call. -/
theorem saveAccess_atomic :
    (∀ (env : TxEnv) (db : DB) (data : AccessDataIn) (c : ClientRow)
        (a : AuthorizeDataIn),
        data.refreshToken ≠ "" → data.client = some c → data.authorizeData = some a →
        (∃ db2, saveAccess env db data = some (.ok (), db2) ∧
            (∃ r, findAccess db2 data.accessToken = some r) ∧
            (∃ s, findRefresh db2 data.refreshToken = some s)) ∨
        (∃ e, saveAccess env db data = some (.error e, db))) ∧
    (∀ (env : TxEnv) (db : DB) (data : AccessDataIn) (s0 : RefreshRow),
        data.refreshToken ≠ "" → findRefresh db data.refreshToken = some s0 →
        ∃ e, saveAccess env db data = some (.error e, db)) ∧
    (∀ (env : TxEnv) (db : DB) (data : AccessDataIn) (c : ClientRow)
        (a : AuthorizeDataIn) (r0 : AccessRow),
        data.refreshToken ≠ "" → data.client = some c → data.authorizeData = some a →
        findRefresh db data.refreshToken = none →
        findAccess db data.accessToken = some r0 →
        ∃ e, saveAccess env db data = some (.error e, db)) ∧
    (∀ (env : TxEnv) (db : DB) (data : AccessDataIn) (c : ClientRow)
        (a : AuthorizeDataIn),
        data.refreshToken ≠ "" → data.client = some c → data.authorizeData = some a →
        env.beginOk = true → env.commitOk = false →
        findRefresh db data.refreshToken = none →
        findAccess db data.accessToken = none →
        saveAccess env db data = some (.error .commitFailed, db)) := by
  refine ⟨?_, ?_, ?_, ?_⟩
  · intro env db data c a hrt hc ha
    obtain ⟨b, cm, rb⟩ := env
    obtain ⟨cl, ad, pa, at2, rt, ei, sc, ru, ca⟩ := data
    dsimp only at hrt hc ha
    subst hc ha
    have hbne : (rt != "") = true := bne_iff_ne.mpr hrt
    cases b with
    | false => exact Or.inr ⟨.beginFailed, by simp [saveAccess]⟩
    | true =>
      cases hfr : findRefresh db rt with
      | some s0 =>
        have hins1 := insertRefresh_present db rt at2 s0 hfr
        refine Or.inr ?_
        cases rb with
        | true => exact ⟨.duplicateKey, by simp [saveAccess, hbne, hins1]⟩
        | false => exact ⟨.rollbackFailed, by simp [saveAccess, hbne, hins1]⟩
      | none =>
        have hins1 := insertRefresh_absent db rt at2 hfr
        cases pa with
        | none =>
          cases hfa : findAccess db at2 with
          | some r0 =>
            have hfa2 : findAccess ⟨db.clients, db.authorizes, db.accesses,
                db.refreshes ++ [⟨rt, at2⟩]⟩ at2 = some r0 := hfa
            have hins2 := insertAccess_present
              ⟨db.clients, db.authorizes, db.accesses, db.refreshes ++ [⟨rt, at2⟩]⟩
              ⟨c.id, a.code, "", at2, rt, ei, sc, ru, ca⟩ r0 hfa2
            refine Or.inr ?_
            cases rb with
            | true => exact ⟨.duplicateKey, by simp [saveAccess, hbne, hins1, hins2]⟩
            | false => exact ⟨.rollbackFailed, by simp [saveAccess, hbne, hins1, hins2]⟩
          | none =>
            have hfa2 : findAccess ⟨db.clients, db.authorizes, db.accesses,
                db.refreshes ++ [⟨rt, at2⟩]⟩ at2 = none := hfa
            have hins2 := insertAccess_absent
              ⟨db.clients, db.authorizes, db.accesses, db.refreshes ++ [⟨rt, at2⟩]⟩
              ⟨c.id, a.code, "", at2, rt, ei, sc, ru, ca⟩ hfa2
            cases cm with
            | true =>
              refine Or.inl ⟨⟨db.clients, db.authorizes,
                db.accesses ++ [⟨c.id, a.code, "", at2, rt, ei, sc, ru, ca⟩],
                db.refreshes ++ [⟨rt, at2⟩]⟩, ?_,
                ⟨⟨c.id, a.code, "", at2, rt, ei, sc, ru, ca⟩, ?_⟩, ⟨⟨rt, at2⟩, ?_⟩⟩
              · simp only [saveAccess, hbne, if_true, hins1, hins2]
              · simp [findAccess, find?_append_of_none (show db.accesses.find?
                  (fun r => r.accessToken == at2) = none from hfa)]
              · simp [findRefresh, find?_append_of_none (show db.refreshes.find?
                  (fun r => r.token == rt) = none from hfr)]
            | false =>
              refine Or.inr ⟨.commitFailed, ?_⟩
              simp only [saveAccess, hbne, if_true, hins1, hins2]
              rfl
        | some p =>
          cases hfa : findAccess db at2 with
          | some r0 =>
            have hfa2 : findAccess ⟨db.clients, db.authorizes, db.accesses,
                db.refreshes ++ [⟨rt, at2⟩]⟩ at2 = some r0 := hfa
            have hins2 := insertAccess_present
              ⟨db.clients, db.authorizes, db.accesses, db.refreshes ++ [⟨rt, at2⟩]⟩
              ⟨c.id, a.code, p.accessToken, at2, rt, ei, sc, ru, ca⟩ r0 hfa2
            refine Or.inr ?_
            cases rb with
            | true => exact ⟨.duplicateKey, by simp [saveAccess, hbne, hins1, hins2]⟩
            | false => exact ⟨.rollbackFailed, by simp [saveAccess, hbne, hins1, hins2]⟩
          | none =>
            have hfa2 : findAccess ⟨db.clients, db.authorizes, db.accesses,
                db.refreshes ++ [⟨rt, at2⟩]⟩ at2 = none := hfa
            have hins2 := insertAccess_absent
              ⟨db.clients, db.authorizes, db.accesses, db.refreshes ++ [⟨rt, at2⟩]⟩
              ⟨c.id, a.code, p.accessToken, at2, rt, ei, sc, ru, ca⟩ hfa2
            cases cm with
            | true =>
              refine Or.inl ⟨⟨db.clients, db.authorizes,
                db.accesses ++ [⟨c.id, a.code, p.accessToken, at2, rt, ei, sc, ru, ca⟩],
                db.refreshes ++ [⟨rt, at2⟩]⟩, ?_,
                ⟨⟨c.id, a.code, p.accessToken, at2, rt, ei, sc, ru, ca⟩, ?_⟩,
                ⟨⟨rt, at2⟩, ?_⟩⟩
              · simp only [saveAccess, hbne, if_true, hins1, hins2]
              · simp [findAccess, find?_append_of_none (show db.accesses.find?
                  (fun r => r.accessToken == at2) = none from hfa)]
              · simp [findRefresh, find?_append_of_none (show db.refreshes.find?
                  (fun r => r.token == rt) = none from hfr)]
            | false =>
              refine Or.inr ⟨.commitFailed, ?_⟩
              simp only [saveAccess, hbne, if_true, hins1, hins2]
              rfl
  · intro env db data s0 hrt hfr
    obtain ⟨b, cm, rb⟩ := env
    obtain ⟨cl, ad, pa, at2, rt, ei, sc, ru, ca⟩ := data
    dsimp only at hrt hfr
    have hbne : (rt != "") = true := bne_iff_ne.mpr hrt
    cases b with
    | false => exact ⟨.beginFailed, by simp [saveAccess]⟩
    | true =>
      have hins1 := insertRefresh_present db rt at2 s0 hfr
      cases rb with
      | true => exact ⟨.duplicateKey, by simp [saveAccess, hbne, hins1]⟩
      | false => exact ⟨.rollbackFailed, by simp [saveAccess, hbne, hins1]⟩
  · intro env db data c a r0 hrt hc ha hfr hfa
    obtain ⟨b, cm, rb⟩ := env
    obtain ⟨cl, ad, pa, at2, rt, ei, sc, ru, ca⟩ := data
    dsimp only at hrt hc ha hfr hfa
    subst hc ha
    have hbne : (rt != "") = true := bne_iff_ne.mpr hrt
    cases b with
    | false => exact ⟨.beginFailed, by simp [saveAccess]⟩
    | true =>
      have hins1 := insertRefresh_absent db rt at2 hfr
      have hfa2 : findAccess ⟨db.clients, db.authorizes, db.accesses,
          db.refreshes ++ [⟨rt, at2⟩]⟩ at2 = some r0 := hfa
      cases pa with
      | none =>
        have hins2 := insertAccess_present
          ⟨db.clients, db.authorizes, db.accesses, db.refreshes ++ [⟨rt, at2⟩]⟩
          ⟨c.id, a.code, "", at2, rt, ei, sc, ru, ca⟩ r0 hfa2
        cases rb with
        | true => exact ⟨.duplicateKey, by simp [saveAccess, hbne, hins1, hins2]⟩
        | false => exact ⟨.rollbackFailed, by simp [saveAccess, hbne, hins1, hins2]⟩
      | some p =>
        have hins2 := insertAccess_present
          ⟨db.clients, db.authorizes, db.accesses, db.refreshes ++ [⟨rt, at2⟩]⟩
          ⟨c.id, a.code, p.accessToken, at2, rt, ei, sc, ru, ca⟩ r0 hfa2
        cases rb with
        | true => exact ⟨.duplicateKey, by simp [saveAccess, hbne, hins1, hins2]⟩
        | false => exact ⟨.rollbackFailed, by simp [saveAccess, hbne, hins1, hins2]⟩
  · intro env db data c a hrt hc ha hB hC hfr hfa
    obtain ⟨b, cm, rb⟩ := env
    obtain ⟨cl, ad, pa, at2, rt, ei, sc, ru, ca⟩ := data
    dsimp only at hrt hc ha hB hC hfr hfa
    subst hc ha hB hC
    have hbne : (rt != "") = true := bne_iff_ne.mpr hrt
    have hins1 := insertRefresh_absent db rt at2 hfr
    have hfa2 : findAccess ⟨db.clients, db.authorizes, db.accesses,
        db.refreshes ++ [⟨rt, at2⟩]⟩ at2 = none := hfa
    cases pa with
    | none =>
      have hins2 := insertAccess_absent
        ⟨db.clients, db.authorizes, db.accesses, db.refreshes ++ [⟨rt, at2⟩]⟩
        ⟨c.id, a.code, "", at2, rt, ei, sc, ru, ca⟩ hfa2
      simp only [saveAccess, hbne, if_true, hins1, hins2]
      rfl
    | some p =>
      have hins2 := insertAccess_absent
        ⟨db.clients, db.authorizes, db.accesses, db.refreshes ++ [⟨rt, at2⟩]⟩
        ⟨c.id, a.code, p.accessToken, at2, rt, ei, sc, ru, ca⟩ hfa2
      simp only [saveAccess, hbne, if_true, hins1, hins2]
      rfl

/-- Witness for C1: the four parts at concrete inputs — a fresh save on
the empty store (dichotomy), a save against an existing refresh token,
a save against an existing access token, and a save whose commit fails,
the last three each returning the unchanged store. -/
theorem saveAccess_atomic_witness :
    ((∃ db2, saveAccess ⟨true, true, true⟩ ⟨[], [], [], []⟩
        ⟨some ⟨"c", "s", "r"⟩, some ⟨some ⟨"c", "s", "r"⟩, "ac", 0, "", "", "", 0⟩,
          none, "t", "rt", 0, "", "", 0⟩ = some (.ok (), db2) ∧
        (∃ r, findAccess db2 "t" = some r) ∧
        (∃ s, findRefresh db2 "rt" = some s)) ∨
      (∃ e, saveAccess ⟨true, true, true⟩ ⟨[], [], [], []⟩
        ⟨some ⟨"c", "s", "r"⟩, some ⟨some ⟨"c", "s", "r"⟩, "ac", 0, "", "", "", 0⟩,
          none, "t", "rt", 0, "", "", 0⟩ = some (.error e, ⟨[], [], [], []⟩))) ∧
    (∃ e, saveAccess ⟨true, true, true⟩ ⟨[], [], [], [⟨"rt", "t0"⟩]⟩
        ⟨some ⟨"c", "s", "r"⟩, some ⟨some ⟨"c", "s", "r"⟩, "ac", 0, "", "", "", 0⟩,
          none, "t", "rt", 0, "", "", 0⟩ =
        some (.error e, ⟨[], [], [], [⟨"rt", "t0"⟩]⟩)) ∧
    (∃ e, saveAccess ⟨true, true, true⟩ ⟨[], [], [⟨"c0", "a0", "", "t", "", 0, "", "", 0⟩], []⟩
        ⟨some ⟨"c", "s", "r"⟩, some ⟨some ⟨"c", "s", "r"⟩, "ac", 0, "", "", "", 0⟩,
          none, "t", "rt", 0, "", "", 0⟩ =
        some (.error e, ⟨[], [], [⟨"c0", "a0", "", "t", "", 0, "", "", 0⟩], []⟩)) ∧
    saveAccess ⟨true, false, true⟩ ⟨[], [], [], []⟩
      ⟨some ⟨"c", "s", "r"⟩, some ⟨some ⟨"c", "s", "r"⟩, "ac", 0, "", "", "", 0⟩,
        none, "t", "rt", 0, "", "", 0⟩ =
      some (.error .commitFailed, ⟨[], [], [], []⟩) :=
  ⟨saveAccess_atomic.1 ⟨true, true, true⟩ ⟨[], [], [], []⟩
     ⟨some ⟨"c", "s", "r"⟩, some ⟨some ⟨"c", "s", "r"⟩, "ac", 0, "", "", "", 0⟩,
       none, "t", "rt", 0, "", "", 0⟩ ⟨"c", "s", "r"⟩
     ⟨some ⟨"c", "s", "r"⟩, "ac", 0, "", "", "", 0⟩ (by decide) rfl rfl,
   saveAccess_atomic.2.1 ⟨true, true, true⟩ ⟨[], [], [], [⟨"rt", "t0"⟩]⟩
     ⟨some ⟨"c", "s", "r"⟩, some ⟨some ⟨"c", "s", "r"⟩, "ac", 0, "", "", "", 0⟩,
       none, "t", "rt", 0, "", "", 0⟩ ⟨"rt", "t0"⟩ (by decide) rfl,
   saveAccess_atomic.2.2.1 ⟨true, true, true⟩
     ⟨[], [], [⟨"c0", "a0", "", "t", "", 0, "", "", 0⟩], []⟩
     ⟨some ⟨"c", "s", "r"⟩, some ⟨some ⟨"c", "s", "r"⟩, "ac", 0, "", "", "", 0⟩,
       none, "t", "rt", 0, "", "", 0⟩ ⟨"c", "s", "r"⟩
     ⟨some ⟨"c", "s", "r"⟩, "ac", 0, "", "", "", 0⟩
     ⟨"c0", "a0", "", "t", "", 0, "", "", 0⟩ (by decide) rfl rfl rfl rfl,
   saveAccess_atomic.2.2.2 ⟨true, false, true⟩ ⟨[], [], [], []⟩
     ⟨some ⟨"c", "s", "r"⟩, some ⟨some ⟨"c", "s", "r"⟩, "ac", 0, "", "", "", 0⟩,
       none, "t", "rt", 0, "", "", 0⟩ ⟨"c", "s", "r"⟩
     ⟨some ⟨"c", "s", "r"⟩, "ac", 0, "", "", "", 0⟩
     (by decide) rfl rfl rfl rfl rfl rfl⟩
end OsinPG

namespace OsinPG

/-- C8: every insert preserves primary-key uniqueness.  For each of the
four record sets, inserting a record whose key is already present fails
with a duplicate-key error and returns the store unchanged (so the
previously stored record's fields are untouched).  The two access-path
cases go through `SaveAccess` with a working rollback, surfacing the
duplicate-key error of the access-row resp. refresh-row insert. -/
theorem insert_duplicate_key_fails :
    (∀ (db : DB) (id secret uri : String) (c0 : ClientRow),
        findClient db id = some c0 →
        createClient db id secret uri = (.error .duplicateKey, db)) ∧
    (∀ (db : DB) (d : AuthorizeDataIn) (c : ClientRow) (a0 : AuthorizeRow),
        d.client = some c → findAuthorize db d.code = some a0 →
        saveAuthorize db d = some (.error .duplicateKey, db)) ∧
    (∀ (env : TxEnv) (db : DB) (d : AccessDataIn) (c : ClientRow)
        (a : AuthorizeDataIn) (r0 : AccessRow),
        env.beginOk = true → env.rollbackOk = true →
        d.refreshToken = "" → d.client = some c → d.authorizeData = some a →
        findAccess db d.accessToken = some r0 →
        saveAccess env db d = some (.error .duplicateKey, db)) ∧
    (∀ (env : TxEnv) (db : DB) (d : AccessDataIn) (s0 : RefreshRow),
        env.beginOk = true → env.rollbackOk = true → d.refreshToken ≠ "" →
        findRefresh db d.refreshToken = some s0 →
        saveAccess env db d = some (.error .duplicateKey, db)) := by
  refine ⟨?_, ?_, ?_, ?_⟩
  · intro db id secret uri c0 h
    simp [createClient, insertClient, h]
  · intro db d c a0 hc hfa
    obtain ⟨cl, code, ei, sc, ru, st, ca⟩ := d
    dsimp only at hc hfa
    subst hc
    simp [saveAuthorize, insertAuthorize, hfa]
  · intro env db d c a r0 hB hR hrt hc ha hfa
    obtain ⟨b, cm, rb⟩ := env
    obtain ⟨cl, ad, pa, at2, rt, ei, sc, ru, ca⟩ := d
    dsimp only at hB hR hrt hc ha hfa
    subst hB hR hrt hc ha
    simp [saveAccess, insertAccess, hfa]
  · intro env db d s0 hB hR hrt hfr
    obtain ⟨b, cm, rb⟩ := env
    obtain ⟨cl, ad, pa, at2, rt, ei, sc, ru, ca⟩ := d
    dsimp only at hB hR hrt hfr
    subst hB hR
    have hbne : (rt != "") = true := bne_iff_ne.mpr hrt
    simp [saveAccess, hbne, insertRefresh, hfr]

/-- Witness for C8: concrete duplicate inserts against one-row stores
for each of the four record sets. -/
theorem insert_duplicate_key_fails_witness :
    createClient ⟨[⟨"i", "s", "r"⟩], [], [], []⟩ "i" "s2" "r2" =
      (.error .duplicateKey, ⟨[⟨"i", "s", "r"⟩], [], [], []⟩) ∧
    saveAuthorize ⟨[], [⟨"c", "ac", 0, "", "", "", 0⟩], [], []⟩
      ⟨some ⟨"c", "s", "r"⟩, "ac", 1, "x", "y", "z", 2⟩ =
      some (.error .duplicateKey, ⟨[], [⟨"c", "ac", 0, "", "", "", 0⟩], [], []⟩) ∧
    saveAccess ⟨true, true, true⟩ ⟨[], [], [⟨"c", "ac", "", "t", "", 0, "", "", 0⟩], []⟩
      ⟨some ⟨"c", "s", "r"⟩, some ⟨some ⟨"c", "s", "r"⟩, "ac", 0, "", "", "", 0⟩,
        none, "t", "", 1, "x", "y", 2⟩ =
      some (.error .duplicateKey, ⟨[], [], [⟨"c", "ac", "", "t", "", 0, "", "", 0⟩], []⟩) ∧
    saveAccess ⟨true, true, true⟩ ⟨[], [], [], [⟨"rt", "t0"⟩]⟩
      ⟨some ⟨"c", "s", "r"⟩, some ⟨some ⟨"c", "s", "r"⟩, "ac", 0, "", "", "", 0⟩,
        none, "t", "rt", 1, "x", "y", 2⟩ =
      some (.error .duplicateKey, ⟨[], [], [], [⟨"rt", "t0"⟩]⟩) :=
  ⟨insert_duplicate_key_fails.1 _ "i" "s2" "r2" ⟨"i", "s", "r"⟩ rfl,
   insert_duplicate_key_fails.2.1 _ ⟨some ⟨"c", "s", "r"⟩, "ac", 1, "x", "y", "z", 2⟩
     ⟨"c", "s", "r"⟩ ⟨"c", "ac", 0, "", "", "", 0⟩ rfl rfl,
   insert_duplicate_key_fails.2.2.1 ⟨true, true, true⟩ _
     ⟨some ⟨"c", "s", "r"⟩, some ⟨some ⟨"c", "s", "r"⟩, "ac", 0, "", "", "", 0⟩,
       none, "t", "", 1, "x", "y", 2⟩ ⟨"c", "s", "r"⟩
     ⟨some ⟨"c", "s", "r"⟩, "ac", 0, "", "", "", 0⟩ ⟨"c", "ac", "", "t", "", 0, "", "", 0⟩
     rfl rfl rfl rfl rfl rfl,
   insert_duplicate_key_fails.2.2.2 ⟨true, true, true⟩ _
     ⟨some ⟨"c", "s", "r"⟩, some ⟨some ⟨"c", "s", "r"⟩, "ac", 0, "", "", "", 0⟩,
       none, "t", "rt", 1, "x", "y", 2⟩ ⟨"rt", "t0"⟩
     rfl rfl (by decide) rfl⟩

end OsinPG

namespace OsinPG

/-- C10: nil-pointer discipline of the save operations.  `SaveAuthorize`
faults (dereferences nil) exactly when the grant's client is nil;
`SaveAccess` never faults when both client and authorize data are
non-nil, and faults when either is nil on the path that reaches the
access insert; a nil predecessor is handled: it does not fault, and a
successful save of a grant with nil predecessor (fresh keys) stores an
access row whose `previous` field is the empty string. -/
theorem save_nil_handling :
    (∀ (db : DB) (d : AuthorizeDataIn), d.client = none →
        saveAuthorize db d = none) ∧
    (∀ (db : DB) (d : AuthorizeDataIn) (c : ClientRow), d.client = some c →
        saveAuthorize db d ≠ none) ∧
    (∀ (env : TxEnv) (db : DB) (d : AccessDataIn) (c : ClientRow)
        (a : AuthorizeDataIn),
        d.client = some c → d.authorizeData = some a →
        saveAccess env db d ≠ none) ∧
    (∀ (env : TxEnv) (db : DB) (d : AccessDataIn),
        env.beginOk = true → d.refreshToken = "" → d.client = none →
        saveAccess env db d = none) ∧
    (∀ (env : TxEnv) (db : DB) (d : AccessDataIn) (c : ClientRow),
        env.beginOk = true → d.refreshToken = "" → d.client = some c →
        d.authorizeData = none → saveAccess env db d = none) ∧
    (∀ (env : TxEnv) (db : DB) (d : AccessDataIn) (db2 : DB),
        d.accessData = none → findAccess db d.accessToken = none →
        findRefresh db d.refreshToken = none →
        saveAccess env db d = some (.ok (), db2) →
        ∃ r, findAccess db2 d.accessToken = some r ∧ r.previous = "") := by
  refine ⟨?_, ?_, ?_, ?_, ?_, ?_⟩
  · intro db d h
    obtain ⟨cl, code, ei, sc, ru, st, ca⟩ := d
    dsimp only at h
    subst h
    simp [saveAuthorize]
  · intro db d c h
    obtain ⟨cl, code, ei, sc, ru, st, ca⟩ := d
    dsimp only at h
    subst h
    cases h2 : insertAuthorize db ⟨c.id, code, ei, sc, ru, st, ca⟩ with
    | error e => simp [saveAuthorize, h2]
    | ok db3 => simp [saveAuthorize, h2]
  · intro env db d c a hc ha
    obtain ⟨b, cm, rb⟩ := env
    obtain ⟨cl, ad, pa, at2, rt, ei, sc, ru, ca⟩ := d
    dsimp only at hc ha
    subst hc ha
    cases b with
    | false => simp [saveAccess]
    | true =>
      simp only [saveAccess, if_true]
      split
      · simp
      · split
        · simp
        · cases cm <;> simp
  · intro env db d hB hrt hc
    obtain ⟨b, cm, rb⟩ := env
    obtain ⟨cl, ad, pa, at2, rt, ei, sc, ru, ca⟩ := d
    dsimp only at hB hrt hc
    subst hB hrt hc
    cases ad <;> simp [saveAccess]
  · intro env db d c hB hrt hc ha
    obtain ⟨b, cm, rb⟩ := env
    obtain ⟨cl, ad, pa, at2, rt, ei, sc, ru, ca⟩ := d
    dsimp only at hB hrt hc ha
    subst hB hrt hc ha
    simp [saveAccess]
  · intro env db d db2 hpa hfa hfr h
    obtain ⟨b, cm, rb⟩ := env
    obtain ⟨cl, ad, pa, at2, rt, ei, sc, ru, ca⟩ := d
    dsimp only at hpa hfa hfr h ⊢
    subst hpa
    cases b with
    | false => simp [saveAccess] at h
    | true =>
      cases hbn : rt != "" with
      | false =>
        cases cl with
        | none => simp [saveAccess, hbn] at h
        | some c2 =>
          cases ad with
          | none => simp [saveAccess, hbn] at h
          | some a2 =>
            have hins2 := insertAccess_absent db
              ⟨c2.id, a2.code, "", at2, rt, ei, sc, ru, ca⟩ hfa
            simp [saveAccess, hbn, hins2] at h
            cases cm with
            | false => simp at h
            | true =>
              simp at h
              subst h
              refine ⟨⟨c2.id, a2.code, "", at2, rt, ei, sc, ru, ca⟩, ?_, rfl⟩
              simp [findAccess, find?_append_of_none (show db.accesses.find?
                (fun r => r.accessToken == at2) = none from hfa)]
      | true =>
        have hins1 := insertRefresh_absent db rt at2 hfr
        cases cl with
        | none => simp [saveAccess, hbn, hins1] at h
        | some c2 =>
          cases ad with
          | none => simp [saveAccess, hbn, hins1] at h
          | some a2 =>
            have hfa2 : findAccess ⟨db.clients, db.authorizes, db.accesses,
                db.refreshes ++ [⟨rt, at2⟩]⟩ at2 = none := hfa
            have hins2 := insertAccess_absent
              ⟨db.clients, db.authorizes, db.accesses, db.refreshes ++ [⟨rt, at2⟩]⟩
              ⟨c2.id, a2.code, "", at2, rt, ei, sc, ru, ca⟩ hfa2
            simp [saveAccess, hbn, hins1, hins2] at h
            cases cm with
            | false => simp at h
            | true =>
              simp at h
              subst h
              refine ⟨⟨c2.id, a2.code, "", at2, rt, ei, sc, ru, ca⟩, ?_, rfl⟩
              simp [findAccess, find?_append_of_none (show db.accesses.find?
                (fun r => r.accessToken == at2) = none from hfa)]

/-- Witness for C10: concrete instances of each conjunct — a nil-client
authorize save faulting, non-nil saves not faulting, nil client or
authorize data faulting in the access save, and a successful nil-
predecessor save storing an empty `previous` field. -/
theorem save_nil_handling_witness :
    saveAuthorize ⟨[], [], [], []⟩ ⟨none, "ac", 0, "", "", "", 0⟩ = none ∧
    saveAuthorize ⟨[], [], [], []⟩
      ⟨some ⟨"c", "s", "r"⟩, "ac", 0, "", "", "", 0⟩ ≠ none ∧
    saveAccess ⟨true, true, true⟩ ⟨[], [], [], []⟩
      ⟨some ⟨"c", "s", "r"⟩, some ⟨some ⟨"c", "s", "r"⟩, "ac", 0, "", "", "", 0⟩,
        none, "t", "", 0, "", "", 0⟩ ≠ none ∧
    saveAccess ⟨true, true, true⟩ ⟨[], [], [], []⟩
      ⟨none, some ⟨some ⟨"c", "s", "r"⟩, "ac", 0, "", "", "", 0⟩,
        none, "t", "", 0, "", "", 0⟩ = none ∧
    saveAccess ⟨true, true, true⟩ ⟨[], [], [], []⟩
      ⟨some ⟨"c", "s", "r"⟩, none, none, "t", "", 0, "", "", 0⟩ = none ∧
    (∃ r, findAccess ⟨[], [], [⟨"c", "ac", "", "t", "", 0, "", "", 0⟩], []⟩ "t" =
        some r ∧ r.previous = "") :=
  ⟨save_nil_handling.1 _ ⟨none, "ac", 0, "", "", "", 0⟩ rfl,
   save_nil_handling.2.1 _ ⟨some ⟨"c", "s", "r"⟩, "ac", 0, "", "", "", 0⟩
     ⟨"c", "s", "r"⟩ rfl,
   save_nil_handling.2.2.1 ⟨true, true, true⟩ _
     ⟨some ⟨"c", "s", "r"⟩, some ⟨some ⟨"c", "s", "r"⟩, "ac", 0, "", "", "", 0⟩,
       none, "t", "", 0, "", "", 0⟩ ⟨"c", "s", "r"⟩
     ⟨some ⟨"c", "s", "r"⟩, "ac", 0, "", "", "", 0⟩ rfl rfl,
   save_nil_handling.2.2.2.1 ⟨true, true, true⟩ _
     ⟨none, some ⟨some ⟨"c", "s", "r"⟩, "ac", 0, "", "", "", 0⟩,
       none, "t", "", 0, "", "", 0⟩ rfl rfl rfl,
   save_nil_handling.2.2.2.2.1 ⟨true, true, true⟩ _
     ⟨some ⟨"c", "s", "r"⟩, none, none, "t", "", 0, "", "", 0⟩ ⟨"c", "s", "r"⟩
     rfl rfl rfl rfl,
   save_nil_handling.2.2.2.2.2 ⟨true, true, true⟩ ⟨[], [], [], []⟩
     ⟨some ⟨"c", "s", "r"⟩, some ⟨some ⟨"c", "s", "r"⟩, "ac", 0, "", "", "", 0⟩,
       none, "t", "", 0, "", "", 0⟩
     ⟨[], [], [⟨"c", "ac", "", "t", "", 0, "", "", 0⟩], []⟩ rfl rfl rfl rfl⟩

end OsinPG
